import Mathlib

/-
Verification of the ayon-backend enrollment endpoint and related handlers.

The definitions below are a shallow embedding of the Python source:
  * `api/events/enroll.py`  (EnrollRequestModel, validate_source_topic, enroll)
  * `api/review/sorting.py` (sort_version_reviewables)
  * `ayon_server/graphql/resolvers/versions.py` (get_versions, get_version)

Effects are made explicit: the database-backed `enroll_job` coroutine is a
function parameter, exceptions become an outcome sum type, and row updates
become updates of an explicit map from activity id to its reviewableOrder.
-/

namespace AyonSpec

/-- Python runtime values, as far as the embedded code compares them.
`payload.ignore_older_than == "0"` in the source compares an `int` to a
`str`; in Python such a mixed comparison always evaluates to `False`. -/
inductive PyVal where
  | pint (n : Int)
  | pstr (s : String)

/-- Python `==` on the values above: equal types compare their contents,
an `int` never equals a `str`. -/
def pyEq : PyVal → PyVal → Bool
  | PyVal.pint a, PyVal.pint b => a == b
  | PyVal.pstr a, PyVal.pstr b => a == b
  | _, _ => false

/-- Split a character list at every dot, mirroring splitting a topic string
into its dot-separated segments. -/
def splitDots : List Char → List (List Char)
  | [] => [[]]
  | c :: rest =>
    if c = '.' then [] :: splitDots rest
    else
      match splitDots rest with
      | [] => [[c]]
      | seg :: segs => (c :: seg) :: segs

/-- Modelled from the spec: the restricted topic grammar checked by
`TOPIC_REGEX` (defined in `ayon_server/types.py`, which is not among the
source files): alphanumeric segments separated by dots, plus at most one
wildcard token `*` standing as its own segment. -/
def matchesTopicGrammar (s : String) : Bool :=
  let segs := splitDots s.data
  segs.all (fun seg => seg = ['*'] || (!seg.isEmpty && seg.all Char.isAlphanum))
    && (segs.filter (fun seg => seg = ['*'])).length ≤ 1

/-- Python `value.replace("*", "%")`: the pattern is the single character
`*`, so the replacement turns every `*` into `%` and leaves the rest. -/
def replaceStars (s : String) : String :=
  String.mk (s.data.map (fun c => if c = '*' then '%' else c))

/-- Python `"*" in s`: substring search for the one-character needle `*`,
i.e. whether `*` occurs among the characters of `s`. -/
def containsStar (s : String) : Bool :=
  s.data.contains '*'

/-- `validate_source_topic` from `api/events/enroll.py`: reject a string
that does not match the topic grammar with a message naming it, otherwise
replace every `*` with the SQL LIKE wildcard `%`
(Python `value.replace("*", "%")`). -/
def validate_source_topic (value : String) : Except String String :=
  if matchesTopicGrammar value = false then
    Except.error ("Invalid topic: " ++ value)
  else
    Except.ok (replaceStars value)

/-- Modelled from the spec: SQL `LIKE`-style matching used against the
patterns produced above — `%` expands to any character sequence, every
other pattern character matches itself. Recursion is structural on the
pattern: a `%` consumes any prefix of the remaining text. -/
def likeMatchChars : List Char → List Char → Bool
  | [], ts => ts.isEmpty
  | p :: ps, ts =>
    if p = '%' then
      (List.range (ts.length + 1)).any (fun k => likeMatchChars ps (ts.drop k))
    else
      match ts with
      | [] => false
      | t :: ts' => p == t && likeMatchChars ps ts'

/-- `LIKE` matching on strings. -/
def likeMatch (pattern s : String) : Bool :=
  likeMatchChars pattern.data s.data

/-- Python `str | list[str]`: the request's `source_topic` is either one
string or a list of strings, and the code keeps the two cases apart. -/
inductive StrOrList where
  | s (v : String)
  | l (v : List String)
deriving DecidableEq

/-- `EnrollRequestModel` from `api/events/enroll.py`. The pydantic field
defaults become structure-field defaults; `source_topic`, `target_topic`
and `sender` are declared with `Field(...)` (required, no default). The
`filter` payload is opaque to the endpoint, so it stays a type parameter. -/
structure EnrollRequestModel (F : Type) where
  source_topic : StrOrList
  target_topic : String
  sender : String
  description : Option String := none
  sequential : Bool := false
  filter : Option F := none
  max_retries : Int := 3
  ignore_older_than : Int := 3
  sloth_mode : Bool := false

/-- The caller identity the endpoint consults: its `name` and the
`is_service` capability bit. -/
structure CurrentUserModel where
  name : String
  is_service : Bool

/-- The argument record the endpoint hands to `enroll_job`
(`ayon_server/events/enroll.py`, outside the embedded files). -/
structure EnrollArgs (F : Type) where
  source_topic : StrOrList
  target_topic : String
  sender : String
  user_name : String
  description : Option String
  sequential : Bool
  filter : Option F
  max_retries : Int
  ignore_older_than : Option Int
  sloth_mode : Bool
deriving DecidableEq

/-- Observable outcome of one call to the `enroll` endpoint: the three
exception classes it raises, the 204 `EmptyResponse` for "no work", or the
`EnrollResponseModel` produced by `enroll_job`. -/
inductive EnrollOutcome (R : Type) where
  | forbidden (msg : String)
  | badRequest (msg : String)
  | serviceUnavailable (msg : String)
  | emptyResponse
  | response (r : R)
deriving DecidableEq

/-- The list comprehension
`[validate_source_topic(t) for t in payload.source_topic]`: elements are
validated left to right and the first invalid one aborts the whole call
with its exception. -/
def validate_list : List String → Except String (List String)
  | [] => Except.ok []
  | t :: ts =>
    match validate_source_topic t with
    | Except.error e => Except.error e
    | Except.ok v =>
      match validate_list ts with
      | Except.error e => Except.error e
      | Except.ok vs => Except.ok (v :: vs)

/-- Normalization of `payload.source_topic` in `enroll`: a plain string is
validated directly, a list is validated element by element. -/
def normalize_sources : StrOrList → Except String StrOrList
  | StrOrList.s t => (validate_source_topic t).map StrOrList.s
  | StrOrList.l ts => (validate_list ts).map StrOrList.l

/-- The `enroll` endpoint from `api/events/enroll.py`. The database pool
introspection `Postgres.get_available_connections()` becomes the
`available_connections` argument, and the awaited `enroll_job` coroutine
becomes the function argument `enroll_job`; everything else follows the
handler body line by line. -/
def enroll {F R : Type} (payload : EnrollRequestModel F)
    (current_user : CurrentUserModel) (available_connections : Int)
    (enroll_job : EnrollArgs F → Option R) : EnrollOutcome R :=
  if current_user.is_service = false then
    EnrollOutcome.forbidden "Only services can enroll for jobs"
  else
    match normalize_sources payload.source_topic with
    | Except.error e => EnrollOutcome.badRequest e
    | Except.ok source_topic =>
      if containsStar payload.target_topic then
        EnrollOutcome.badRequest "Target topic must not contain wildcards"
      else if available_connections < 3 then
        EnrollOutcome.serviceUnavailable
          ("Postgres remaining pool size: " ++ toString available_connections)
      else
        let user_name := current_user.name
        let ignore_older : Option Int :=
          if pyEq (PyVal.pint payload.ignore_older_than) (PyVal.pstr "0") then
            none
          else
            some payload.ignore_older_than
        match enroll_job
            { source_topic := source_topic
              target_topic := payload.target_topic
              sender := payload.sender
              user_name := user_name
              description := payload.description
              sequential := payload.sequential
              filter := payload.filter
              max_retries := payload.max_retries
              ignore_older_than := ignore_older
              sloth_mode := payload.sloth_mode } with
        | none => EnrollOutcome.emptyResponse
        | some r => EnrollOutcome.response r

/-- The two exceptions `sort_version_reviewables` can raise after the
reviewables of the version have been fetched:
`NotFoundException("Version not found")` when the fetch returns no rows and
`BadRequestException("Invalid reviewable ids")` when the requested id set
differs from the stored one. -/
inductive SortError where
  | notFound
  | badRequest
deriving DecidableEq

/-- Python `set(a) == set(b)` on lists of strings: mutual membership. -/
def setEqBool (a b : List String) : Bool :=
  a.all (fun x => b.contains x) && b.all (fun x => a.contains x)

/-- The update loop of `sort_version_reviewables`:
`for i, activity_id in enumerate(request.sort)` sets the activity's
`reviewableOrder` to `i`; a later index overwrites an earlier one for the
same id. The rows of the `activities` table are modelled as a map from
activity id to its current `reviewableOrder`. -/
def applyOrder : (String → Option Nat) → Nat → List String → (String → Option Nat)
  | orders, _, [] => orders
  | orders, i, activity_id :: rest =>
    applyOrder (fun x => if x = activity_id then some i else orders x) (i + 1) rest

/-- `sort_version_reviewables` from `api/review/sorting.py`, modelled from
the point where the reviewable activity ids of the version have been
fetched (`storedIds`); entity loading and access checks happen before and
are independent of this logic. Returns the raised exception, if any,
together with the resulting `reviewableOrder` column: an exception is
raised before the update transaction starts, so the map is unchanged on
error. -/
def sort_version_reviewables (storedIds : List String)
    (sort : Option (List String)) (orders : String → Option Nat) :
    Option SortError × (String → Option Nat) :=
  if storedIds.isEmpty then
    (some SortError.notFound, orders)
  else
    match sort with
    | none => (none, orders)
    | some l =>
      if setEqBool l storedIds = false then
        (some SortError.badRequest, orders)
      else
        (none, applyOrder orders 0 l)

/-- One edge of a GraphQL versions connection; only the node is relevant
to the embedded resolvers. -/
structure VersionEdge (N : Type) where
  node : N
deriving DecidableEq

/-- `VersionsConnection`: the list of edges a versions query resolves to. -/
structure VersionsConnection (N : Type) where
  edges : List (VersionEdge N)
deriving DecidableEq

/-- Python `"0" * 32`: the all-zeros 32-character id. -/
def zero_id : String := String.mk (List.replicate 32 '0')

/-- `get_versions` from `ayon_server/graphql/resolvers/versions.py`,
restricted to the `ids` argument that decides the early return
(`if ids == ["0" * 32]: return VersionsConnection(edges=[])`). The SQL
construction and the `resolve` call are abstracted into `store`; the
returned flag records whether the flow reached the store query. -/
def get_versions {N : Type} (ids : Option (List String))
    (store : Option (List String) → List (VersionEdge N)) :
    VersionsConnection N × Bool :=
  if ids = some [zero_id] then
    ({ edges := [] }, false)
  else
    ({ edges := store ids }, true)

/-- `get_version` from `ayon_server/graphql/resolvers/versions.py`:
`if not id: return None` (without calling `get_versions`), otherwise query
`get_versions` with `ids=[id]` and return the first edge's node, or `None`
when there is no edge. The flag records whether `get_versions` was
invoked. -/
def get_version {N : Type} (id : String)
    (store : Option (List String) → List (VersionEdge N)) :
    Option N × Bool :=
  if id = "" then
    (none, false)
  else
    match (get_versions (some [id]) store).1.edges with
    | [] => (none, true)
    | e :: _ => (some e.node, true)

/-- An `EnrollRequestModel` built from only the three required fields;
every other field takes the pydantic default declared on the structure. -/
def mkEnrollRequest (F : Type) (st : StrOrList) (tt sn : String) :
    EnrollRequestModel F :=
  { source_topic := st, target_topic := tt, sender := sn }

/-- A list with an invalid element validates to the exception of its first
invalid element, which names that element. -/
theorem validate_list_first_error (ts : List String) (v : String)
    (hv : v ∈ ts) (hbad : matchesTopicGrammar v = false) :
    ∃ t, t ∈ ts ∧ matchesTopicGrammar t = false
      ∧ validate_list ts = Except.error ("Invalid topic: " ++ t) := by
  induction ts with
  | nil => cases hv
  | cons a as ih =>
    by_cases ha : matchesTopicGrammar a = false
    · exact ⟨a, List.mem_cons_self a as, ha,
        by simp [validate_list, validate_source_topic, ha]⟩
    · have hva : v ∈ as := by
        rcases List.mem_cons.mp hv with h | h
        · exact absurd (h ▸ hbad) ha
        · exact h
      obtain ⟨t, htm, htb, hte⟩ := ih hva
      exact ⟨t, List.mem_cons_of_mem a htm, htb,
        by simp [validate_list, validate_source_topic, ha, hte]⟩

/-- The enumerate loop leaves an id that is not listed untouched. -/
theorem applyOrder_not_mem (l : List String) :
    ∀ (orders : String → Option Nat) (i : Nat) (x : String), x ∉ l →
      applyOrder orders i l x = orders x := by
  induction l with
  | nil => intro orders i x _; rfl
  | cons a as ih =>
    intro orders i x hx
    simp only [List.mem_cons, not_or] at hx
    show applyOrder (fun y => if y = a then some i else orders y) (i + 1) as x
      = orders x
    rw [ih _ _ _ hx.2]
    simp [hx.1]

/-- The enumerate loop assigns to the id at a position with no later
occurrence of the same id the index of that position (offset by the
starting index of the loop): later assignments overwrite earlier ones. -/
theorem applyOrder_last_occurrence (l : List String) :
    ∀ (orders : String → Option Nat) (start i : Nat) (hi : i < l.length),
      (∀ k, (hk : k < l.length) → i < k → l.get ⟨k, hk⟩ ≠ l.get ⟨i, hi⟩) →
      applyOrder orders start l (l.get ⟨i, hi⟩) = some (start + i) := by
  induction l with
  | nil => intro _ _ i hi; exact absurd hi (Nat.not_lt_zero i)
  | cons a as ih =>
    intro orders start i hi hlast
    cases i with
    | zero =>
      have ha : a ∉ as := by
        intro hmem
        obtain ⟨⟨j, hj⟩, hja⟩ := List.mem_iff_get.mp hmem
        exact hlast (j + 1) (Nat.succ_lt_succ hj) (Nat.succ_pos j) hja
      show applyOrder (fun y => if y = a then some start else orders y)
        (start + 1) as a = some (start + 0)
      rw [applyOrder_not_mem as _ _ _ ha]
      simp
    | succ j =>
      have hj : j < as.length := Nat.lt_of_succ_lt_succ hi
      show applyOrder (fun y => if y = a then some start else orders y)
        (start + 1) as (as.get ⟨j, hj⟩) = some (start + (j + 1))
      have hlast' : ∀ k, (hk : k < as.length) → j < k →
          as.get ⟨k, hk⟩ ≠ as.get ⟨j, hj⟩ := by
        intro k hk hjk
        exact hlast (k + 1) (Nat.succ_lt_succ hk) (Nat.succ_lt_succ hjk)
      rw [ih _ (start + 1) j hj hlast']
      congr 1
      omega

/-- C1: the claim says a request with `ignore_older_than = 0` is
normalized to "no cutoff" (`None` passed to `enroll_job`). The source
compares the integer field against the string `"0"`
(`if payload.ignore_older_than == "0"`), which is always `False` in
Python, so `enroll_job` receives `0`, not `None`: evaluated here at a
request with `ignore_older_than = 0`, the endpoint hands `enroll_job`
`ignore_older_than = some 0`. -/
theorem enroll_ignore_older_zero_passes_zero :
    enroll (F := Unit) (R := EnrollArgs Unit)
      { source_topic := StrOrList.s "ftrack.update",
        target_topic := "ftrack.sync", sender := "w1", ignore_older_than := 0 }
      { name := "svc", is_service := true } 10 (fun a => some a)
    = EnrollOutcome.response
        { source_topic := StrOrList.s "ftrack.update",
          target_topic := "ftrack.sync", sender := "w1", user_name := "svc",
          description := none, sequential := false, filter := none,
          max_retries := 3, ignore_older_than := some 0,
          sloth_mode := false } := by
  rfl

/-- C2: a request whose target topic contains `*` never reaches
`enroll_job` (the outcome does not depend on it), always fails with a
client-error outcome (`forbidden` or `badRequest`), and — once the caller
is a service and the source topics validate — fails precisely with
`BadRequestException("Target topic must not contain wildcards")`. -/
theorem enroll_wildcard_target_rejected {F R : Type}
    (payload : EnrollRequestModel F) (u : CurrentUserModel) (avail : Int)
    (ej ej' : EnrollArgs F → Option R)
    (hw : containsStar payload.target_topic = true) :
    enroll payload u avail ej = enroll payload u avail ej'
    ∧ (∃ m, enroll payload u avail ej = EnrollOutcome.forbidden m
        ∨ enroll payload u avail ej = EnrollOutcome.badRequest m)
    ∧ (u.is_service = true →
        ∀ s, normalize_sources payload.source_topic = Except.ok s →
        enroll payload u avail ej
          = EnrollOutcome.badRequest "Target topic must not contain wildcards") := by
  refine ⟨?_, ?_, ?_⟩
  · by_cases hsvc : u.is_service = false
    · simp [enroll, hsvc]
    · cases hns : normalize_sources payload.source_topic with
      | error e => simp [enroll, hsvc, hns]
      | ok s => simp [enroll, hsvc, hns, hw]
  · by_cases hsvc : u.is_service = false
    · exact ⟨"Only services can enroll for jobs", Or.inl (by simp [enroll, hsvc])⟩
    · cases hns : normalize_sources payload.source_topic with
      | error e => exact ⟨e, Or.inr (by simp [enroll, hsvc, hns])⟩
      | ok s =>
        exact ⟨"Target topic must not contain wildcards",
          Or.inr (by simp [enroll, hsvc, hns, hw])⟩
  · intro hsvc s hns
    simp [enroll, hsvc, hns, hw]

/-- Witness for C2: a service request with `target_topic = "ftrack.*"`
fails with the wildcard `BadRequestException`. -/
theorem enroll_wildcard_target_rejected_witness :
    enroll (F := Unit) (R := Unit)
      { source_topic := StrOrList.s "ftrack.update",
        target_topic := "ftrack.*", sender := "w1" }
      { name := "svc", is_service := true } 10 (fun _ => none)
    = EnrollOutcome.badRequest "Target topic must not contain wildcards" :=
  (enroll_wildcard_target_rejected
    { source_topic := StrOrList.s "ftrack.update",
      target_topic := "ftrack.*", sender := "w1" }
    { name := "svc", is_service := true } 10 (fun _ => none) (fun _ => none)
    (by decide)).2.2 rfl (StrOrList.s "ftrack.update") rfl

/-- C3: with fewer than 3 available store connections the endpoint never
reaches `enroll_job` (the outcome does not depend on it) and — once the
caller is a service and the request shape validates — fails with
`ServiceUnavailableException` carrying the remaining pool size; with at
least 3 available connections the guard never rejects the call. -/
theorem enroll_backpressure_guard {F R : Type}
    (payload : EnrollRequestModel F) (u : CurrentUserModel) (avail : Int)
    (ej ej' : EnrollArgs F → Option R) :
    (avail < 3 → enroll payload u avail ej = enroll payload u avail ej')
    ∧ (avail < 3 → u.is_service = true →
        ∀ s, normalize_sources payload.source_topic = Except.ok s →
        containsStar payload.target_topic = false →
        enroll payload u avail ej
          = EnrollOutcome.serviceUnavailable
              ("Postgres remaining pool size: " ++ toString avail))
    ∧ (3 ≤ avail → ∀ m,
        enroll payload u avail ej ≠ EnrollOutcome.serviceUnavailable m) := by
  refine ⟨?_, ?_, ?_⟩
  · intro h3
    by_cases hsvc : u.is_service = false
    · simp [enroll, hsvc]
    · cases hns : normalize_sources payload.source_topic with
      | error e => simp [enroll, hsvc, hns]
      | ok s =>
        by_cases hw : containsStar payload.target_topic
        · simp [enroll, hsvc, hns, hw]
        · simp [enroll, hsvc, hns, hw, h3]
  · intro h3 hsvc s hns hw
    simp [enroll, hsvc, hns, hw, h3]
  · intro h3 m
    have h3' : ¬ avail < 3 := by omega
    by_cases hsvc : u.is_service = false
    · simp [enroll, hsvc]
    · cases hns : normalize_sources payload.source_topic with
      | error e => simp [enroll, hsvc, hns]
      | ok s =>
        by_cases hw : containsStar payload.target_topic
        · simp [enroll, hsvc, hns, hw]
        · simp [enroll, hsvc, hns, hw, h3']
          split <;> simp

/-- Witness for C3: with 2 remaining connections (threshold 3) the call is
refused as unavailable; with 3 it is not. -/
theorem enroll_backpressure_guard_witness :
    enroll (F := Unit) (R := Unit)
      { source_topic := StrOrList.s "ftrack.update",
        target_topic := "ftrack.sync", sender := "w1" }
      { name := "svc", is_service := true } 2 (fun _ => none)
      = EnrollOutcome.serviceUnavailable
          ("Postgres remaining pool size: " ++ toString (2 : Int))
    ∧ ∀ m, enroll (F := Unit) (R := Unit)
        { source_topic := StrOrList.s "ftrack.update",
          target_topic := "ftrack.sync", sender := "w1" }
        { name := "svc", is_service := true } 3 (fun _ => none)
        ≠ EnrollOutcome.serviceUnavailable m := by
  have h2 := enroll_backpressure_guard (F := Unit) (R := Unit)
    { source_topic := StrOrList.s "ftrack.update",
      target_topic := "ftrack.sync", sender := "w1" }
    { name := "svc", is_service := true } 2 (fun _ => none) (fun _ => none)
  have h3 := enroll_backpressure_guard (F := Unit) (R := Unit)
    { source_topic := StrOrList.s "ftrack.update",
      target_topic := "ftrack.sync", sender := "w1" }
    { name := "svc", is_service := true } 3 (fun _ => none) (fun _ => none)
  exact ⟨h2.2.1 (by decide) rfl (StrOrList.s "ftrack.update") rfl rfl,
    fun m => h3.2.2 (by decide) m⟩

/-- C4: a caller without the service capability is rejected with
`ForbiddenException("Only services can enroll for jobs")` before anything
else — the outcome depends on nothing else in the request, the pool, or
`enroll_job` — and a service caller is never rejected with `Forbidden`. -/
theorem enroll_requires_service {F R : Type}
    (payload : EnrollRequestModel F) (u : CurrentUserModel) (avail : Int)
    (ej ej' : EnrollArgs F → Option R) :
    (u.is_service = false →
      enroll payload u avail ej
        = EnrollOutcome.forbidden "Only services can enroll for jobs"
      ∧ enroll payload u avail ej = enroll payload u avail ej')
    ∧ (u.is_service = true → ∀ m,
        enroll payload u avail ej ≠ EnrollOutcome.forbidden m) := by
  constructor
  · intro hsvc
    constructor <;> simp [enroll, hsvc]
  · intro hsvc m
    by_cases hns' : ∃ s, normalize_sources payload.source_topic = Except.ok s
    · obtain ⟨s, hns⟩ := hns'
      by_cases hw : containsStar payload.target_topic
      · simp [enroll, hsvc, hns, hw]
      · by_cases h3 : avail < 3
        · simp [enroll, hsvc, hns, hw, h3]
        · simp [enroll, hsvc, hns, hw, h3]
          split <;> simp
    · cases hns : normalize_sources payload.source_topic with
      | error e => simp [enroll, hsvc, hns]
      | ok s => exact absurd ⟨s, hns⟩ hns'

/-- Witness for C4: a non-service caller is rejected with `Forbidden`; a
service caller is not. -/
theorem enroll_requires_service_witness :
    enroll (F := Unit) (R := Unit)
      { source_topic := StrOrList.s "ftrack.update",
        target_topic := "ftrack.sync", sender := "w1" }
      { name := "u1", is_service := false } 10 (fun _ => none)
      = EnrollOutcome.forbidden "Only services can enroll for jobs"
    ∧ ∀ m, enroll (F := Unit) (R := Unit)
        { source_topic := StrOrList.s "ftrack.update",
          target_topic := "ftrack.sync", sender := "w1" }
        { name := "svc", is_service := true } 10 (fun _ => none)
        ≠ EnrollOutcome.forbidden m :=
  ⟨((enroll_requires_service
      { source_topic := StrOrList.s "ftrack.update",
        target_topic := "ftrack.sync", sender := "w1" }
      { name := "u1", is_service := false } 10 (fun _ => none)
      (fun _ => none)).1 rfl).1,
    fun m => (enroll_requires_service
      { source_topic := StrOrList.s "ftrack.update",
        target_topic := "ftrack.sync", sender := "w1" }
      { name := "svc", is_service := true } 10 (fun _ => none)
      (fun _ => none)).2 rfl m⟩

/-- C5: a source-topic pattern that does not match the topic grammar fails
validation — and the enroll call as a whole — with a `BadRequestException`
naming the offending string, both for a plain string and for a list
element; a matching pattern has each `*` replaced by the SQL LIKE wildcard
`%`; concretely, `ftrack.*` becomes `ftrack.%`, which LIKE-matches
`ftrack.update` and `ftrack.sync` but not `shotgrid.update`. -/
theorem source_topic_validation {F R : Type}
    (payload : EnrollRequestModel F) (u : CurrentUserModel) (avail : Int)
    (ej : EnrollArgs F → Option R) (v : String) :
    (matchesTopicGrammar v = false →
      validate_source_topic v = Except.error ("Invalid topic: " ++ v)
      ∧ (u.is_service = true → payload.source_topic = StrOrList.s v →
          enroll payload u avail ej
            = EnrollOutcome.badRequest ("Invalid topic: " ++ v)))
    ∧ (matchesTopicGrammar v = true →
        validate_source_topic v = Except.ok (replaceStars v))
    ∧ (∀ ts, payload.source_topic = StrOrList.l ts → v ∈ ts →
        matchesTopicGrammar v = false → u.is_service = true →
        ∃ t, t ∈ ts ∧ matchesTopicGrammar t = false
          ∧ enroll payload u avail ej
              = EnrollOutcome.badRequest ("Invalid topic: " ++ t))
    ∧ validate_source_topic "ftrack.*" = Except.ok "ftrack.%"
    ∧ likeMatch "ftrack.%" "ftrack.update" = true
    ∧ likeMatch "ftrack.%" "ftrack.sync" = true
    ∧ likeMatch "ftrack.%" "shotgrid.update" = false := by
  refine ⟨?_, ?_, ?_, by rfl, by decide, by decide, by decide⟩
  · intro hbad
    constructor
    · simp [validate_source_topic, hbad]
    · intro hsvc hsrc
      simp [enroll, hsvc, hsrc, normalize_sources, validate_source_topic, hbad,
        Except.map]
  · intro hgood
    simp [validate_source_topic, hgood]
  · intro ts hsrc hv hbad hsvc
    obtain ⟨t, htm, htb, hte⟩ := validate_list_first_error ts v hv hbad
    exact ⟨t, htm, htb,
      by simp [enroll, hsvc, hsrc, normalize_sources, hte, Except.map]⟩

/-- Witness for C5 at concrete inputs: a malformed pattern is rejected
with a message naming it, also as a list element, and a well-formed
pattern passes. -/
theorem source_topic_validation_witness :
    (∃ t, t ∈ ["ftrack.update", "bad topic"]
      ∧ matchesTopicGrammar t = false
      ∧ enroll (F := Unit) (R := Unit)
          { source_topic := StrOrList.l ["ftrack.update", "bad topic"],
            target_topic := "ftrack.sync", sender := "w1" }
          { name := "svc", is_service := true } 10 (fun _ => none)
          = EnrollOutcome.badRequest ("Invalid topic: " ++ t))
    ∧ validate_source_topic "bad topic"
        = Except.error ("Invalid topic: " ++ "bad topic")
    ∧ validate_source_topic "ftrack.update"
        = Except.ok (replaceStars "ftrack.update") := by
  have h := source_topic_validation (F := Unit) (R := Unit)
    { source_topic := StrOrList.l ["ftrack.update", "bad topic"],
      target_topic := "ftrack.sync", sender := "w1" }
    { name := "svc", is_service := true } 10 (fun _ => none) "bad topic"
  have h' := source_topic_validation (F := Unit) (R := Unit)
    { source_topic := StrOrList.l ["ftrack.update", "bad topic"],
      target_topic := "ftrack.sync", sender := "w1" }
    { name := "svc", is_service := true } 10 (fun _ => none) "ftrack.update"
  exact ⟨h.2.2.1 _ rfl (by decide) (by decide) rfl,
    (h.1 (by decide)).1, h'.2.1 (by decide)⟩

/-- C6: when the request passes every check and `enroll_job` finds no
candidate (returns `None`), the endpoint returns the 204 `EmptyResponse`,
an outcome distinct from every error constructor; no error is raised. -/
theorem enroll_no_work_empty_response {F R : Type}
    (payload : EnrollRequestModel F) (u : CurrentUserModel) (avail : Int)
    (ej : EnrollArgs F → Option R)
    (hsvc : u.is_service = true)
    (s : StrOrList)
    (hns : normalize_sources payload.source_topic = Except.ok s)
    (hw : containsStar payload.target_topic = false)
    (h3 : 3 ≤ avail)
    (hnone : ∀ a, ej a = none) :
    enroll payload u avail ej = EnrollOutcome.emptyResponse
    ∧ (∀ m, (EnrollOutcome.emptyResponse : EnrollOutcome R)
        ≠ EnrollOutcome.forbidden m)
    ∧ (∀ m, (EnrollOutcome.emptyResponse : EnrollOutcome R)
        ≠ EnrollOutcome.badRequest m)
    ∧ (∀ m, (EnrollOutcome.emptyResponse : EnrollOutcome R)
        ≠ EnrollOutcome.serviceUnavailable m) := by
  have h3' : ¬ avail < 3 := by omega
  refine ⟨?_, fun m => by simp, fun m => by simp, fun m => by simp⟩
  simp [enroll, hsvc, hns, hw, h3', hnone]

/-- Witness for C6: a fully valid request against an `enroll_job` that
finds nothing yields the empty response. -/
theorem enroll_no_work_empty_response_witness :
    enroll (F := Unit) (R := Unit)
      { source_topic := StrOrList.s "ftrack.update",
        target_topic := "ftrack.sync", sender := "w1" }
      { name := "svc", is_service := true } 10 (fun _ => none)
      = EnrollOutcome.emptyResponse :=
  (enroll_no_work_empty_response (F := Unit) (R := Unit)
    { source_topic := StrOrList.s "ftrack.update",
      target_topic := "ftrack.sync", sender := "w1" }
    { name := "svc", is_service := true } 10 (fun _ => none) rfl
    (StrOrList.s "ftrack.update") rfl rfl (by decide) (fun _ => rfl)).1

/-- C8: a request carrying only the required fields `source_topic`,
`target_topic` and `sender` defaults to `description = None`,
`sequential = False`, `filter = None`, `max_retries = 3`,
`ignore_older_than = 3` and `sloth_mode = False`, while the required
fields are taken verbatim. -/
theorem enroll_request_model_defaults (st : StrOrList) (tt sn : String) :
    (mkEnrollRequest Unit st tt sn).description = none
    ∧ (mkEnrollRequest Unit st tt sn).sequential = false
    ∧ (mkEnrollRequest Unit st tt sn).filter = none
    ∧ (mkEnrollRequest Unit st tt sn).max_retries = 3
    ∧ (mkEnrollRequest Unit st tt sn).ignore_older_than = 3
    ∧ (mkEnrollRequest Unit st tt sn).sloth_mode = false
    ∧ (mkEnrollRequest Unit st tt sn).source_topic = st
    ∧ (mkEnrollRequest Unit st tt sn).target_topic = tt
    ∧ (mkEnrollRequest Unit st tt sn).sender = sn :=
  ⟨rfl, rfl, rfl, rfl, rfl, rfl, rfl, rfl, rfl⟩

/-- C9: with a non-`None` sort list, a requested id set different from the
stored one makes the call fail with a client error leaving every
`reviewableOrder` unchanged; an equal id set (duplicates allowed, since
the check compares Python sets) succeeds and assigns each listed id the
index of its last occurrence in the list — later indices overwrite
earlier ones — while unlisted ids keep their previous order. -/
theorem sort_reviewables_correct (storedIds l : List String)
    (orders : String → Option Nat) :
    (setEqBool l storedIds = false →
      (sort_version_reviewables storedIds (some l) orders).1.isSome = true
      ∧ (sort_version_reviewables storedIds (some l) orders).2 = orders)
    ∧ (setEqBool l storedIds = true →
      (∀ x, x ∉ l →
        (sort_version_reviewables storedIds (some l) orders).2 x = orders x)
      ∧ (∀ i, (hi : i < l.length) →
          (∀ k, (hk : k < l.length) → i < k → l.get ⟨k, hk⟩ ≠ l.get ⟨i, hi⟩) →
          (sort_version_reviewables storedIds (some l) orders).2 (l.get ⟨i, hi⟩)
            = some i)) := by
  constructor
  · intro hne
    by_cases hemp : storedIds.isEmpty
    · simp [sort_version_reviewables, hemp]
    · simp [sort_version_reviewables, hemp, hne]
  · intro heq
    by_cases hemp : storedIds.isEmpty
    · have hstored : storedIds = [] := by
        cases storedIds with
        | nil => rfl
        | cons a as => simp [List.isEmpty] at hemp
      subst hstored
      have hl : l = [] := by
        cases l with
        | nil => rfl
        | cons a as => simp [setEqBool] at heq
      subst hl
      constructor
      · intro x _
        simp [sort_version_reviewables]
      · intro i hi
        exact absurd hi (Nat.not_lt_zero i)
    · have h2 : (sort_version_reviewables storedIds (some l) orders).2
          = applyOrder orders 0 l := by
        simp [sort_version_reviewables, hemp, heq]
      constructor
      · intro x hx
        rw [h2, applyOrder_not_mem l _ _ _ hx]
      · intro i hi hlast
        rw [h2, applyOrder_last_occurrence l orders 0 i hi hlast]
        simp

/-- Witness for C9: stored reviewables `a`, `b`; the duplicated request
list `[b, a, b]` is accepted (its set equals the stored set), `a` ends at
index 1, `b` at its last index 2, an unlisted id is untouched; a request
naming an unknown id fails and changes nothing. -/
theorem sort_reviewables_correct_witness :
    (sort_version_reviewables ["a", "b"] (some ["b", "a", "b"])
        (fun _ => none)).2 "a" = some 1
    ∧ (sort_version_reviewables ["a", "b"] (some ["b", "a", "b"])
        (fun _ => none)).2 "b" = some 2
    ∧ (sort_version_reviewables ["a", "b"] (some ["b", "a", "b"])
        (fun _ => none)).2 "c" = none
    ∧ (sort_version_reviewables ["a"] (some ["a", "z"])
        (fun _ => none)).1.isSome = true := by
  have h := sort_reviewables_correct ["a", "b"] ["b", "a", "b"] (fun _ => none)
  have hgood := h.2 (by decide)
  have hbad := sort_reviewables_correct ["a"] ["a", "z"] (fun _ => none)
  exact ⟨hgood.2 1 (by decide) (by decide), hgood.2 2 (by decide) (by decide),
    hgood.1 "c" (by decide), (hbad.1 (by decide)).1⟩

/-- C10: `get_versions` called with exactly the single all-zeros id
returns the empty connection without touching the store; `get_version`
with the empty id returns `None` without calling `get_versions`; for any
other id `get_version` queries `get_versions` with `ids=[id]` and returns
the first edge's node, or `None` when no edge matches. -/
theorem versions_resolver_shortcuts {N : Type} (id : String)
    (store : Option (List String) → List (VersionEdge N))
    (hid : id ≠ "") :
    get_versions (some [zero_id]) store = ({ edges := [] }, false)
    ∧ get_version "" store = (none, false)
    ∧ (get_version id store).2 = true
    ∧ (get_version id store).1
        = ((get_versions (some [id]) store).1.edges.head?).map
            VersionEdge.node := by
  refine ⟨by simp [get_versions], by rfl, ?_, ?_⟩
  · cases h : (get_versions (some [id]) store).1.edges with
    | nil => simp [get_version, hid, h]
    | cons e rest => simp [get_version, hid, h]
  · cases h : (get_versions (some [id]) store).1.edges with
    | nil => simp [get_version, hid, h]
    | cons e rest => simp [get_version, hid, h]

/-- Witness for C10: a non-empty id against an empty store reaches
`get_versions` and resolves to `None`. -/
theorem versions_resolver_shortcuts_witness :
    (get_version "x" (fun _ => ([] : List (VersionEdge Unit)))).2 = true
    ∧ (get_version "x" (fun _ => ([] : List (VersionEdge Unit)))).1 = none := by
  have h := versions_resolver_shortcuts (N := Unit) "x" (fun _ => [])
    (by decide)
  exact ⟨h.2.2.1, by rw [h.2.2.2]; rfl⟩

end AyonSpec

